import Mathlib

/-!
# Nitro-Express dialogue engine: shallow embedding and verification

This file embeds the dialogue execution engine of the Nitro-Express visual
novel player (src/src/core/scene/DialogueScene.py, PromptScene.py,
SceneManager.py and the effect helpers under src/src/core/ui/effects/) as pure
Lean definitions, and proves properties of the embedded code.

Conventions:
* Python floats are modelled as rationals where the code only performs field
  operations and comparisons, and as real numbers in the coordinate animator,
  whose elastic easing uses transcendental functions.
* Python dicts are insertion-ordered association lists over string keys.
* Fallible code (KeyError from dict.pop, IndexError from list.pop on an empty
  list) returns Except.
-/

namespace NitroExpress

/-! ## Python dict: insertion-ordered association list over string keys -/

/-- A Python dict with string keys: an insertion-ordered association list.
Assignment to an existing key updates it in place; assignment to a fresh key
appends. -/
structure Dict (α : Type) where
  entries : List (String × α)
deriving DecidableEq, Repr

namespace Dict

def empty {α : Type} : Dict α := ⟨[]⟩

def getEntry? {α : Type} : List (String × α) → String → Option α
  | [], _ => none
  | (k', v) :: rest, k => if k' = k then some v else getEntry? rest k

/-- `d[k]` lookup returning an option (first matching entry). -/
def get? {α : Type} (d : Dict α) (k : String) : Option α :=
  getEntry? d.entries k

/-- `d.get(k, default)`. -/
def getD {α : Type} (d : Dict α) (k : String) (v₀ : α) : α :=
  (d.get? k).getD v₀

/-- `k in d`. -/
def contains {α : Type} (d : Dict α) (k : String) : Bool :=
  (d.get? k).isSome

def insertEntry {α : Type} : List (String × α) → String → α → List (String × α)
  | [], k, v => [(k, v)]
  | (k', v') :: rest, k, v =>
      if k' = k then (k, v) :: rest else (k', v') :: insertEntry rest k v

/-- `d[k] = v`: update in place when the key exists, append otherwise. -/
def insert {α : Type} (d : Dict α) (k : String) (v : α) : Dict α :=
  ⟨insertEntry d.entries k v⟩

def popEntry {α : Type} : List (String × α) → String → Option (List (String × α))
  | [], _ => none
  | (k', v') :: rest, k =>
      if k' = k then some rest else (popEntry rest k).map ((k', v') :: ·)

/-- `d.pop(k)` without a default: `none` models the raised KeyError. -/
def pop {α : Type} (d : Dict α) (k : String) : Option (Dict α) :=
  (popEntry d.entries k).map Dict.mk

/-- `{k: f(v) for k, v in d.items()}` keeping every key. -/
def mapValues {α : Type} (d : Dict α) (f : α → α) : Dict α :=
  ⟨d.entries.map (fun p => (p.1, f p.2))⟩

end Dict

/-- Runtime errors surfaced by the embedded code. -/
inductive PyError where
  | keyError (key : String)
  | indexError (msg : String)
deriving DecidableEq, Repr

/-! ## Typewriter (src/src/core/ui/effects/Typewriter.py) -/

structure Typewriter where
  full_text : String
  progress : ℚ
  cps_scale : ℚ
  base_cps : ℚ
deriving DecidableEq, Repr

namespace Typewriter

def current_cps (tw : Typewriter) : ℚ := tw.base_cps * tw.cps_scale

def is_finished (tw : Typewriter) : Bool :=
  tw.progress ≥ (tw.full_text.length : ℚ)

def skip (tw : Typewriter) : Typewriter :=
  { tw with progress := (tw.full_text.length : ℚ) }

/-- `reset(full_text)` with an explicit new text. -/
def reset (tw : Typewriter) (full_text : String) : Typewriter :=
  { tw with progress := 0, full_text := full_text }

def update (tw : Typewriter) (delta : ℚ) : Typewriter :=
  let p := min (tw.full_text.length : ℚ) (tw.progress + tw.current_cps * delta)
  { tw with progress := p }

end Typewriter

/-! ## Coordinate animator (src/src/core/ui/effects/CoordsAnimator.py)

The six easing subclasses `Linear, OutCubic, InCubic, OutBack, InBack, Elastic`
share the `Animator` base; we carry the subclass as a `kind` tag and give the
easing law as one function over the reals (the elastic easing uses `sin` and a
real power, hence the real-valued, noncomputable layer). -/

inductive EasingKind where
  | linear
  | out_cubic
  | in_cubic
  | out_back
  | in_back
  | elastic
deriving DecidableEq, Repr

/-- `lerp(start, end, v)`. -/
def lerp (start endp : ℝ × ℝ) (v : ℝ) : ℝ × ℝ :=
  (start.1 + (endp.1 - start.1) * v, start.2 + (endp.2 - start.2) * v)

/-- The per-subclass `update` formula mapping the normalized time `t` to the
progress value `_v`. -/
noncomputable def ease : EasingKind → ℝ → ℝ
  | .linear, t => t
  | .out_cubic, t => 1 - (1 - t) ^ 3
  | .in_cubic, t => t ^ 3
  | .out_back, t => (t - 1) * (t - 1) * ((1.70158 + 1) * (t - 1) + 1.70158) + 1
  | .in_back, t => t * t * ((1.70158 + 1) * t - 1.70158)
  | .elastic, t =>
      if t = 0 then 0
      else if t = 1 then 1
      else (2 : ℝ) ^ (-10 * t) * Real.sin ((t - 0.3 / 4) * 2 * Real.pi / 0.3) + 1

structure Animator where
  start : ℝ × ℝ
  endp : ℝ × ℝ
  kind : EasingKind
  duration : ℝ
  elapsed : ℝ
  v : ℝ

namespace Animator

/-- `Animator.__init__`: the duration is floored at `1e-6`, elapsed and the
progress value start at zero. -/
noncomputable def init (start endp : ℝ × ℝ) (kind : EasingKind) (duration : ℝ) :
    Animator :=
  { start := start, endp := endp, kind := kind,
    duration := max duration (1 / 1000000), elapsed := 0, v := 0 }

/-- `_update_t`: accumulate the clamped delta, clamp elapsed at the duration,
return the updated animator together with the normalized time fraction. -/
noncomputable def updateT (a : Animator) (delta : ℝ) : Animator × ℝ :=
  let e := a.elapsed + max delta 0
  let e := if e ≥ a.duration then a.duration else e
  ({ a with elapsed := e }, e / a.duration)

/-- `update`: advance time and recompute `_v` through the easing law. -/
noncomputable def update (a : Animator) (delta : ℝ) : Animator :=
  let p := a.updateT delta
  { p.1 with v := ease a.kind p.2 }

noncomputable def curr (a : Animator) : ℝ × ℝ := lerp a.start a.endp a.v

def is_finished (a : Animator) : Prop := a.elapsed ≥ a.duration

/-- A sequence of per-frame `update` calls. -/
noncomputable def run (a : Animator) : List ℝ → Animator
  | [] => a
  | d :: ds => (a.update d).run ds

end Animator

/-- The animator object the engine stores per character on `move_character`
(a freshly constructed easing subclass instance): the construction parameters,
with positions in the rational pixel space of the engine. Its time-driven behaviour
is the real-valued `Animator` layer above. -/
structure AnimatorHandle where
  start : ℚ × ℚ
  endp : ℚ × ℚ
  duration : ℚ
  kind : EasingKind
deriving DecidableEq, Repr

/-- The real-valued animator that a stored handle denotes (elapsed `0`,
progress value `0`, duration floored at `1e-6`). -/
noncomputable def AnimatorHandle.toAnimator (h : AnimatorHandle) : Animator :=
  Animator.init ((h.start.1 : ℝ), (h.start.2 : ℝ)) ((h.endp.1 : ℝ), (h.endp.2 : ℝ))
    h.kind (h.duration : ℝ)

/-! ## Screen shake (src/src/core/ui/effects/ScreenShake.py)

Only `start` is reachable from the script interpreter; the randomized offset
draw is not modelled (the random seed is abstracted away). -/

structure ShakeState where
  duration : ℚ
  timer : ℚ
  intensity : ℚ
  frequency : ℤ
  infinite : Bool
deriving DecidableEq, Repr

/-- `ScreenShake.__init__`. -/
def ShakeState.initial : ShakeState :=
  { duration := 0, timer := 0, intensity := 0, frequency := 0, infinite := false }

/-- `ScreenShake.start`. -/
def ShakeState.start (_sh : ShakeState) (duration intensity : ℚ) (frequency : ℤ)
    (infinite : Bool) : ShakeState :=
  { duration := duration, timer := duration, intensity := intensity,
    frequency := frequency, infinite := infinite }

/-! ## Script data model (src/src/core/scene/DialogueStructure.py)

`DialogueActionData` is a `{type, args}` record in Python; the closed set of
type strings and the argument keys each handler reads are embedded as a tagged
variant carrying exactly those arguments. -/

structure PromptOption where
  message : String
  flag_value : String
deriving DecidableEq, Repr

structure ScenePackage where
  scene_id : String
  required_g_flags : List (String × String)
deriving DecidableEq, Repr

/-- The optional `transition` argument of `set_background`. -/
structure BgTransitionArg where
  type : String
  duration : ℚ
deriving DecidableEq, Repr

inductive ActionData where
  | show_text (speaker_name speaker_title text : String)
  | set_background (filename : Option String) (blur : ℤ)
      (transition : Option BgTransitionArg)
  | play_bgm
  | play_sfx
  | show_character (character_id : String) (x y : ℚ)
  | move_character (character_id : String) (from_x from_y to_x to_y : ℚ)
      (duration : ℚ) (easing : String)
  | hide_character (character_id : String)
  | set_highlight (character_id : String) (dim_others : Bool)
  | screen_shake (duration intensity : ℚ) (frequency : ℤ) (infinite : Bool)
  | prompt (id message : String) (options : List PromptOption)
  | change_dialogue_scene (packages : List ScenePackage)
deriving DecidableEq, Repr

/-- `action.get("type")`: the dispatch string of each action. -/
def ActionData.type : ActionData → String
  | .show_text .. => "show_text"
  | .set_background .. => "set_background"
  | .play_bgm => "play_bgm"
  | .play_sfx => "play_sfx"
  | .show_character .. => "show_character"
  | .move_character .. => "move_character"
  | .hide_character .. => "hide_character"
  | .set_highlight .. => "set_highlight"
  | .screen_shake .. => "screen_shake"
  | .prompt .. => "prompt"
  | .change_dialogue_scene .. => "change_dialogue_scene"

structure DialogueCharacterData where
  id : String
  sprite_filename : String
  scale : ℚ
  default_layer : ℤ
deriving DecidableEq, Repr

structure DialogueStepData where
  id : String
  actions : List ActionData
deriving DecidableEq, Repr

structure DialogueSceneData where
  characters : List DialogueCharacterData
  steps : List DialogueStepData
deriving DecidableEq, Repr

/-! ## Prompt sub-scene (src/src/core/scene/PromptScene.py) -/

structure PromptSceneState where
  text : String
  flag_key : String
  options : List String
  option_flags : List String
  selected : ℕ
deriving DecidableEq, Repr

/-- `PromptScene.__init__`: raises IndexError when the option labels and flag
values differ in count; `selected` starts at 0. -/
def mkPromptScene (text flag_key : String) (options option_flags : List String) :
    Except PyError PromptSceneState :=
  if options.length ≠ option_flags.length then
    .error (.indexError "Options and flags should have exactly same amount.")
  else
    .ok { text := text, flag_key := flag_key, options := options,
          option_flags := option_flags, selected := 0 }

/-- A scene on the manager stack, as far as the dialogue engine can observe it
(the awaited-overlay check only tests membership of `PromptScene` instances). -/
inductive SceneTag where
  | dialogue
  | promptScene (p : PromptSceneState)
  | dialogueLog
deriving DecidableEq, Repr

/-! ## Background surfaces -/

/-- Identity of a loaded, scaled background surface: the source illustration
name (`none` is the solid black fallback) and the applied blur radius. -/
structure BgSurface where
  filename : Option String
  blur : ℤ
deriving DecidableEq, Repr

/-- The in-flight `_bg_transition` fade record. -/
structure BgFade where
  duration : ℚ
  elapsed : ℚ
  src : BgSurface
  dst : BgSurface
deriving DecidableEq, Repr

/-! ## Engine state (DialogueScene fields plus the shared SceneManager state)

The scene manager fields `g_flags`, `scene_stack` and the pending switch are
carried in the same record, since the engine and the prompt sub-scene mutate
them through the shared manager reference. -/

structure EngineState where
  dialogue_data : DialogueSceneData
  windows_size : ℤ × ℤ
  last_pressed_continue : Bool
  continue_dialogue : Bool
  curr_step_idx : ℕ
  curr_action_idx : ℕ
  last_action_idx : ℤ
  dialogue_history : List (String × String)
  is_speaker_exist : Bool
  auto_mode : Bool
  auto_advance_timer : ℚ
  hide_mode : Bool
  skip_mode : Bool
  /-- `_awaiting_overlays` is only ever `[]` or `[PromptScene]`; modelled as
  whether `PromptScene` is an awaited overlay type. -/
  awaiting_overlays : Bool
  tw : Typewriter
  shake : ShakeState
  sprite : Dict String
  pos : Dict (ℚ × ℚ)
  animator : Dict (Option AnimatorHandle)
  is_highlighted : Dict Bool
  name_surface : String
  ctitle_surface : String
  background : Option BgSurface
  bg_transition : Option BgFade
  g_flags : Dict String
  scene_stack : List SceneTag
  pending_switch : Option String
deriving DecidableEq, Repr

/-- Modelled from the spec: the process-wide branch-flag map. Its
initialization is not in the sources under src/ (PromptScene and DialogueScene
reference `sm.g_flags`, which no file under src/ defines); per the spec it is
an in-memory map scoped to the running session, hence initially empty. -/
def initialGFlags : Dict String := Dict.empty

/-- `_relative_scale_to_pos`: normalized screen coordinates, centre `(0,0)`,
range `-1..1`, converted to pixel space (`//` is Python floor division). -/
def relativeScaleToPos (windows_size : ℤ × ℤ) (x_scale y_scale : ℚ) : ℚ × ℚ :=
  let w_mid : ℤ := Int.fdiv windows_size.1 2
  let h_mid : ℤ := Int.fdiv windows_size.2 2
  ((w_mid : ℚ) * (1 + x_scale), (h_mid : ℚ) * (1 + y_scale))

/-- `_apply_background`: instant swap unless a positive-duration fade is
requested while a background exists, in which case a fade record is created
and the previous background is kept until the fade commits. -/
def applyBackground (s : EngineState) (filename : Option String) (blur : ℤ)
    (transition : Option BgTransitionArg) : EngineState :=
  let new_background : BgSurface := ⟨filename, blur⟩
  match transition with
  | none => { s with background := some new_background, bg_transition := none }
  | some tr =>
      match s.background with
      | some old =>
          if tr.type = "fade" ∧ tr.duration > 0 then
            let fade : BgFade := ⟨tr.duration, 0, old, new_background⟩
            { s with bg_transition := some fade }
          else
            { s with background := some new_background, bg_transition := none }
      | none => { s with background := some new_background, bg_transition := none }

/-- The first-match package scan of `change_dialogue_scene`. A required-flag
mismatch executes `return`, which aborts the whole action: packages after the
first are never examined. An empty package list falls through as a no-op. -/
def changeDialogueScene (packages : List ScenePackage) (s : EngineState) :
    EngineState :=
  match packages with
  | [] => s
  | pkg :: _ =>
      if pkg.required_g_flags.all (fun kv => s.g_flags.getD kv.1 "" == kv.2) then
        { s with pending_switch := some pkg.scene_id }
      else
        s

/-- `_execute_action`: apply one script action to the engine state. `hide_character`
pops the character id from the `sprite`, `pos` and `animator` dicts (KeyError
when absent) and leaves `is_highlighted` untouched, exactly as the source does. -/
def execAction (a : ActionData) (s : EngineState) : Except PyError EngineState :=
  match a with
  | .show_text speaker_name speaker_title text =>
      .ok { s with
        is_speaker_exist := (speaker_name != "" || speaker_title != ""),
        name_surface := speaker_name,
        ctitle_surface := speaker_title,
        tw := s.tw.reset text,
        dialogue_history := s.dialogue_history ++ [(speaker_name, text)] }
  | .set_background filename blur transition =>
      .ok (applyBackground s filename blur transition)
  | .play_bgm => .ok s
  | .play_sfx => .ok s
  | .show_character character_id x y =>
      let p := relativeScaleToPos s.windows_size x y
      .ok { s with pos := s.pos.insert character_id p }
  | .move_character character_id from_x from_y to_x to_y duration easing =>
      let from_pos := relativeScaleToPos s.windows_size from_x from_y
      let to_pos := relativeScaleToPos s.windows_size to_x to_y
      let assign : EasingKind → EngineState := fun kind =>
        let h : AnimatorHandle := ⟨from_pos, to_pos, duration, kind⟩
        { s with animator := s.animator.insert character_id (some h) }
      match easing with
      | "linear" => .ok (assign .linear)
      | "out_cubic" => .ok (assign .out_cubic)
      | "in_cubic" => .ok (assign .in_cubic)
      | "out_back" => .ok (assign .out_back)
      | "in_back" => .ok (assign .in_back)
      | "elastic" => .ok (assign .elastic)
      | _ => .ok s
  | .hide_character character_id =>
      match s.sprite.pop character_id with
      | none => .error (.keyError character_id)
      | some sprite' =>
      match s.pos.pop character_id with
      | none => .error (.keyError character_id)
      | some pos' =>
      match s.animator.pop character_id with
      | none => .error (.keyError character_id)
      | some animator' =>
          .ok { s with sprite := sprite', pos := pos', animator := animator' }
  | .set_highlight character_id dim_others =>
      let hl := if dim_others then s.is_highlighted.mapValues (fun _ => false)
                else s.is_highlighted
      let hl := if character_id ≠ "" then hl.insert character_id true else hl
      .ok { s with is_highlighted := hl }
  | .screen_shake duration intensity frequency infinite =>
      .ok { s with shake := s.shake.start duration intensity frequency infinite }
  | .prompt id message options =>
      let flag_key := id
      let option_labels := options.map (·.message)
      let option_values := options.map (·.flag_value)
      match mkPromptScene message flag_key option_labels option_values with
      | .error e => .error e
      | .ok p =>
          .ok { s with scene_stack := s.scene_stack ++ [.promptScene p],
                       awaiting_overlays := true }
  | .change_dialogue_scene packages =>
      .ok (changeDialogueScene packages s)

/-! ## The per-step action loop (`DialogueScene._execute_step`)

The Python `while self._curr_action_idx < len(actions)` loop advances
`_curr_action_idx` by one on every iteration that does not return, so it runs
at most `len(actions) - _curr_action_idx` iterations; that count is passed as
the structural `fuel` argument, whose zero case coincides with the loop exit
condition under that accounting. -/

def executeStepLoop (actions : List ActionData) :
    ℕ → EngineState → Except PyError (EngineState × Bool)
  | 0, s => .ok (s, true)
  | fuel + 1, s =>
    if h : s.curr_action_idx < actions.length then
      let action := actions.get ⟨s.curr_action_idx, h⟩
      if s.skip_mode = true ∧ action.type ≠ "prompt" then
        -- Skip mode: apply the action (force-completing a show_text reveal)
        -- and advance, without consulting the last-applied guard.
        match execAction action s with
        | .error e => .error e
        | .ok s1 =>
            let s2 := if action.type = "show_text" then { s1 with tw := s1.tw.skip }
                      else s1
            executeStepLoop actions fuel
              { s2 with curr_action_idx := s.curr_action_idx + 1,
                        last_action_idx := -1 }
      else
        -- Non skip mode: apply once, guarded by the last-applied index.
        match (if s.last_action_idx ≠ (s.curr_action_idx : ℤ) then
                (execAction action s).map
                  (fun s' => { s' with last_action_idx := (s.curr_action_idx : ℤ) })
              else .ok s) with
        | .error e => .error e
        | .ok s1 =>
            if action.type = "show_text" ∨ action.type = "prompt" then
              if s1.tw.is_finished = false then .ok (s1, false)
              else if s1.continue_dialogue = false then .ok (s1, false)
              else
                let s2 := { s1 with continue_dialogue := false,
                                    curr_action_idx := s.curr_action_idx + 1,
                                    last_action_idx := -1 }
                if s2.skip_mode = true ∧ action.type = "prompt" then
                  .ok ({ s2 with skip_mode := false }, false)
                else
                  executeStepLoop actions fuel s2
            else
              let s2 := { s1 with curr_action_idx := s.curr_action_idx + 1,
                                  last_action_idx := -1 }
              executeStepLoop actions fuel s2
    else .ok (s, true)

/-- `_execute_step(idx)`: look the step up (IndexError when out of range) and
run the action loop from the current action index. -/
def executeStep (idx : ℕ) (s : EngineState) : Except PyError (EngineState × Bool) :=
  match s.dialogue_data.steps.get? idx with
  | none => .error (.indexError "list index out of range")
  | some step =>
      executeStepLoop step.actions (step.actions.length - s.curr_action_idx) s

/-- `_advance_dialogue`: terminal no-op past the last step; otherwise run the
current step and, when it finishes, move to the next step (resetting the
action index, the last-applied marker and the advance flag) and execute it
within the same call when one remains. -/
def advanceDialogue (s : EngineState) : Except PyError EngineState :=
  if s.curr_step_idx ≥ s.dialogue_data.steps.length then .ok s
  else
    match executeStep s.curr_step_idx s with
    | .error e => .error e
    | .ok (s1, step_finished) =>
        if step_finished then
          let s2 := { s1 with curr_step_idx := s1.curr_step_idx + 1,
                              curr_action_idx := 0,
                              last_action_idx := -1,
                              continue_dialogue := false }
          if s2.curr_step_idx < s2.dialogue_data.steps.length then
            (executeStep s2.curr_step_idx s2).map Prod.fst
          else .ok s2
        else .ok s1

/-! ## Background resolution and scene entry -/

/-- The backward scan of `_find_latest_background.find_in_step` over a prefix
of the actions of a step: the last `set_background` in the considered range wins. -/
def findBgInActions : List ActionData → Option (Option String × ℤ)
  | [] => none
  | a :: rest =>
      match findBgInActions rest with
      | some r => some r
      | none =>
          match a with
          | .set_background filename blur _ => some (filename, blur)
          | _ => none

/-- `find_in_step(step_idx, last_action_idx)`. -/
def findInStep (step : DialogueStepData) (last_action_idx : Option ℤ) :
    Option String × ℤ :=
  let max_idx : ℤ :=
    match last_action_idx with
    | some i => i
    | none => (step.actions.length : ℤ) - 1
  if max_idx < 0 then (none, 0)
  else
    match findBgInActions (step.actions.take (max_idx.toNat + 1)) with
    | some r => r
    | none => (none, 0)

/-- One iteration of the `for idx in reversed(range(curr_step_idx + 1))` scan:
resolve step `i` and run `find_in_step` on it; in the current step only
actions before the current action index count, earlier steps are scanned
whole (IndexError when the step index is out of range). -/
def findLatestBgAt (steps : List DialogueStepData) (curr_step curr_action i : ℕ) :
    Except PyError (Option String × ℤ) :=
  match steps.get? i with
  | none => .error (.indexError "list index out of range")
  | some step =>
      let last : Option ℤ :=
        if i = curr_step then some ((curr_action : ℤ) - 1) else none
      .ok (findInStep step last)

def findLatestBgFrom (steps : List DialogueStepData) (curr_step curr_action : ℕ) :
    ℕ → Except PyError (Option String × ℤ)
  | 0 => do
      let r ← findLatestBgAt steps curr_step curr_action 0
      match r with
      | (some name, blur) => .ok (some name, blur)
      | (none, _) => .ok (none, 0)
  | j + 1 => do
      let r ← findLatestBgAt steps curr_step curr_action (j + 1)
      match r with
      | (some name, blur) => .ok (some name, blur)
      | (none, _) => findLatestBgFrom steps curr_step curr_action j

/-- `_find_latest_background`. -/
def findLatestBackground (s : EngineState) : Except PyError (Option String × ℤ) :=
  findLatestBgFrom s.dialogue_data.steps s.curr_step_idx s.curr_action_idx
    s.curr_step_idx

/-- `_reload_background`: resolve the latest background and apply it with no
transition. -/
def reloadBackground (s : EngineState) : Except PyError EngineState := do
  let fb ← findLatestBackground s
  .ok (applyBackground s fb.1 fb.2 none)

/-- `_reload_characters`: rebuild the four per-character dicts from the script
roster. The dicts are replaced by fresh empty ones first, so the `.get`
defaults only preserve entries written earlier in the same loop. The sprite
value records the source filename of the loaded sprite. -/
def reloadCharacters (roster : List DialogueCharacterData) :
    Dict String × Dict (ℚ × ℚ) × Dict (Option AnimatorHandle) × Dict Bool :=
  roster.foldl
    (fun ch cd =>
      let offscreen : ℚ × ℚ := (-10000, 0)
      (ch.1.insert cd.id cd.sprite_filename,
       ch.2.1.insert cd.id (ch.2.1.getD cd.id offscreen),
       ch.2.2.1.insert cd.id (ch.2.2.1.getD cd.id none),
       ch.2.2.2.insert cd.id (ch.2.2.2.getD cd.id false)))
    (Dict.empty, Dict.empty, Dict.empty, Dict.empty)

/-- `reload_elements`, restricted to the state the interpreter observes: the
speaker surfaces are re-rendered from the empty string, the background is
re-resolved, and the character dicts are rebuilt (fonts and buttons are pure
rendering resources and are not modelled). -/
def reloadElements (s : EngineState) : Except PyError EngineState := do
  let s := { s with name_surface := "", ctitle_surface := "" }
  let s ← reloadBackground s
  let ch := reloadCharacters s.dialogue_data.characters
  .ok { s with sprite := ch.1, pos := ch.2.1, animator := ch.2.2.1,
               is_highlighted := ch.2.2.2 }

/-- `DialogueScene.enter`: reload elements, reset the cursor state, then
execute step 0 (its finished flag is discarded). -/
def enterScene (s : EngineState) : Except PyError EngineState := do
  let s ← reloadElements s
  let s := { s with curr_step_idx := 0, curr_action_idx := 0,
                    last_action_idx := -1, continue_dialogue := false,
                    awaiting_overlays := false }
  let r ← executeStep s.curr_step_idx s
  .ok r.1

/-- `DialogueScene.__init__` restricted to the modelled fields. `cps_scale` is
the configured text speed scale; the scene manager state (flag map, stack) is
passed in. -/
def initState (dd : DialogueSceneData) (windows_size : ℤ × ℤ) (cps_scale : ℚ)
    (g_flags : Dict String) (scene_stack : List SceneTag) : EngineState :=
  { dialogue_data := dd,
    windows_size := windows_size,
    last_pressed_continue := false,
    continue_dialogue := false,
    curr_step_idx := 0,
    curr_action_idx := 0,
    last_action_idx := -1,
    dialogue_history := [],
    is_speaker_exist := false,
    auto_mode := false,
    auto_advance_timer := 0,
    hide_mode := false,
    skip_mode := false,
    awaiting_overlays := false,
    tw := ⟨"", 0, cps_scale, 18⟩,
    shake := ShakeState.initial,
    sprite := Dict.empty,
    pos := Dict.empty,
    animator := Dict.empty,
    is_highlighted := Dict.empty,
    name_surface := "",
    ctitle_surface := "",
    background := none,
    bg_transition := none,
    g_flags := g_flags,
    scene_stack := scene_stack,
    pending_switch := none }

/-! ## Input handlers -/

/-- The `"skip"` branch of `DialogueScene.handle.mouse_event`:
`self.dialogue_history.pop()` (IndexError on an empty history) followed by
enabling skip mode. -/
def skipButtonClick (s : EngineState) : Except PyError EngineState :=
  match s.dialogue_history.getLast? with
  | none => .error (.indexError "pop from empty list")
  | some _ =>
      .ok { s with dialogue_history := s.dialogue_history.dropLast,
                   skip_mode := true }

/-- `SceneManager.stack_pop`: drop the topmost scene, no-op on an empty stack
(`PromptScene.leave` is a pass). -/
def stackPop (stack : List SceneTag) : List SceneTag := stack.dropLast

/-- The flag write of `PromptScene.handle` when option `idx` is resolved:
`self.sm.g_flags[self.flag_key] = self.option_flags[idx]`. The handler only
resolves in-range indices (`selected` is reduced mod the option count and the
click index enumerates the option rects). -/
def promptFlagWrite (p : PromptSceneState) (idx : ℕ) (s : EngineState) :
    EngineState :=
  { s with g_flags := s.g_flags.insert p.flag_key (p.option_flags.getD idx "") }

/-- Resolving option `idx` of a prompt sub-scene (return key on the selected
option, or a click inside an option rect): the flag write followed by
`stack_pop`. -/
def promptResolveOption (p : PromptSceneState) (idx : ℕ) (s : EngineState) :
    EngineState :=
  let s1 := promptFlagWrite p idx s
  { s1 with scene_stack := stackPop s1.scene_stack }

/-! ## Concrete scenes and engine states used by the verification -/

/-- A script whose roster holds one character and whose single step hides it. -/
def hideAliceScene : DialogueSceneData :=
  ⟨[⟨"alice", "alice", 1, 0⟩], [⟨"s0", [.hide_character "alice"]⟩]⟩

def hideAliceEntry : EngineState :=
  initState hideAliceScene (1920, 1080) 1 initialGFlags [.dialogue]

/-- A script with two empty steps before a step carrying a `show_text`. -/
def twoEmptyStepsScene : DialogueSceneData :=
  ⟨[], [⟨"a", []⟩, ⟨"b", []⟩, ⟨"c", [.show_text "n" "t" "x"]⟩]⟩

def twoEmptyStepsEntry : EngineState :=
  initState twoEmptyStepsScene (1920, 1080) 1 initialGFlags [.dialogue]

/-- A bare engine state over a trivial script, used to exercise individual
actions from a known configuration. -/
def plainState : EngineState :=
  initState ⟨[], [⟨"s0", []⟩]⟩ (1920, 1080) 1 initialGFlags [.dialogue]

/-- An engine state in which the four character dicts hold exactly "alice",
as `_reload_characters` builds them from a one-character roster. -/
def aliceShownState : EngineState :=
  { initState hideAliceScene (1920, 1080) 1 initialGFlags [.dialogue] with
    sprite := ⟨[("alice", "alice")]⟩, pos := ⟨[("alice", ((-10000 : ℚ), 0))]⟩,
    animator := ⟨[("alice", none)]⟩, is_highlighted := ⟨[("alice", false)]⟩ }

/-- The engine blocked on an already-applied `show_text` (the last-applied
marker equals the current action index), with skip mode just enabled and the
given dialogue history; the single-step script carries only that `show_text`. -/
def blockedShowTextSkipState (sid speaker title text : String)
    (hist : List (String × String)) (tw0 : Typewriter) : EngineState :=
  { initState ⟨[], [⟨sid, [.show_text speaker title text]⟩]⟩ (1920, 1080) 1
      initialGFlags [.dialogue] with
    last_action_idx := 0, skip_mode := true, dialogue_history := hist, tw := tw0 }

/-- The engine blocked on the first (already-applied) `show_text` of the
four-action step `[show_text, show_character, prompt, show_text]` of the spec
example, with skip mode just enabled. The two prompt options carry symbolic
labels and flag values. -/
def skipPromptStepState (sid n1 t1 x1 cid : String) (cx cy : ℚ)
    (pid pmsg ol1 ov1 ol2 ov2 n2 t2 x2 : String)
    (hist : List (String × String)) (tw0 : Typewriter) : EngineState :=
  { initState
      ⟨[], [⟨sid, [.show_text n1 t1 x1, .show_character cid cx cy,
                   .prompt pid pmsg [⟨ol1, ov1⟩, ⟨ol2, ov2⟩],
                   .show_text n2 t2 x2]⟩]⟩
      (1920, 1080) 1 initialGFlags [.dialogue] with
    last_action_idx := 0, skip_mode := true, dialogue_history := hist, tw := tw0 }

/-- The state at which `skipPromptStepState` halts after one advance call:
standing on the prompt action (index 2, applied), its sub-scene pushed, the
effects of the first two actions applied — and skip mode still set. -/
def skipPromptYieldState (sid n1 t1 x1 cid : String) (cx cy : ℚ)
    (pid pmsg ol1 ov1 ol2 ov2 n2 t2 x2 : String)
    (hist : List (String × String)) (tw0 : Typewriter) : EngineState :=
  { skipPromptStepState sid n1 t1 x1 cid cx cy pid pmsg ol1 ov1 ol2 ov2
      n2 t2 x2 hist tw0 with
    curr_action_idx := 2, last_action_idx := 2,
    dialogue_history := hist ++ [(n1, x1)],
    is_speaker_exist := (n1 != "" || t1 != ""),
    tw := ⟨x1, (x1.length : ℚ), tw0.cps_scale, tw0.base_cps⟩,
    pos := Dict.empty.insert cid (relativeScaleToPos (1920, 1080) cx cy),
    name_surface := n1, ctitle_surface := t1,
    awaiting_overlays := true,
    scene_stack := [SceneTag.dialogue,
      SceneTag.promptScene ⟨pmsg, pid, [ol1, ol2], [ov1, ov2], 0⟩] }

/-- A state blocked on an applied `show_text` whose text is still revealing
is obtained from `plainShowTextState` by the entry path; used as the witness
input for the blocking claim. -/
def plainShowTextState : EngineState :=
  { initState ⟨[], [⟨"s0", [.show_text "n" "t" "x"]⟩]⟩ (1920, 1080) 1
      initialGFlags [.dialogue] with
    last_action_idx := 0 }

end NitroExpress

namespace NitroExpress

/-! ## Basic facts about the embedded code -/

namespace Dict

theorem getEntry?_insertEntry_self {α : Type} (l : List (String × α)) (k : String) (v : α) :
    getEntry? (insertEntry l k v) k = some v := by
  induction l with
  | nil => simp [insertEntry, getEntry?]
  | cons p rest ih =>
      obtain ⟨k', v'⟩ := p
      by_cases h : k' = k
      · simp [insertEntry, getEntry?, h]
      · simp [insertEntry, getEntry?, h, ih]

/-- Looking up a key right after assigning it yields the assigned value. -/
theorem get?_insert_self {α : Type} (d : Dict α) (k : String) (v : α) :
    (d.insert k v).get? k = some v := by
  simp [insert, get?, getEntry?_insertEntry_self]

theorem popEntry_eq_none {α : Type} (l : List (String × α)) (k : String)
    (h : getEntry? l k = none) : popEntry l k = none := by
  induction l with
  | nil => simp [popEntry]
  | cons p rest ih =>
      obtain ⟨k', v'⟩ := p
      by_cases hk : k' = k
      · simp [getEntry?, hk] at h
      · simp [getEntry?, hk] at h
        simp [popEntry, hk, ih h]

/-- `d.pop(k)` on an absent key raises (returns none). -/
theorem pop_eq_none_of_not_contains {α : Type} (d : Dict α) (k : String)
    (h : d.contains k = false) : d.pop k = none := by
  have h' : d.get? k = none := by
    cases hg : d.get? k with
    | none => rfl
    | some v => simp [contains, hg] at h
  simp [pop, popEntry_eq_none d.entries k h']

/-- Assigning a key makes it present. -/
theorem contains_insert_self {α : Type} (d : Dict α) (k : String) (v : α) :
    (d.insert k v).contains k = true := by
  simp [contains, get?_insert_self]

end Dict

@[simp] theorem Typewriter.is_finished_skip (tw : Typewriter) :
    tw.skip.is_finished = true := by
  simp [Typewriter.skip, Typewriter.is_finished]

/-- `_execute_action` never moves the step/action cursor, the last-applied
marker, the advance flag, the skip flag, or the script itself: those are owned
by the step loop. -/
theorem execAction_cursor (a : ActionData) (s s' : EngineState)
    (h : execAction a s = .ok s') :
    s'.curr_step_idx = s.curr_step_idx ∧ s'.curr_action_idx = s.curr_action_idx ∧
    s'.last_action_idx = s.last_action_idx ∧ s'.skip_mode = s.skip_mode ∧
    s'.continue_dialogue = s.continue_dialogue ∧
    s'.dialogue_data = s.dialogue_data := by
  cases a <;>
    simp only [execAction, applyBackground, changeDialogueScene, mkPromptScene] at h <;>
    (repeat' split at h) <;>
    (first
      | exact Except.noConfusion h
      | ((injection h with h); subst h; exact ⟨rfl, rfl, rfl, rfl, rfl, rfl⟩))

end NitroExpress

namespace NitroExpress

/-- The guarded once-per-visit application step of the non-skip branch keeps
the cursor and the skip flag where they were. -/
theorem guardExec_cursor (action : ActionData) (s s1 : EngineState)
    (h : (if s.last_action_idx ≠ (s.curr_action_idx : ℤ) then
            (execAction action s).map
              (fun s' => { s' with last_action_idx := (s.curr_action_idx : ℤ) })
          else .ok s) = .ok s1) :
    s1.curr_step_idx = s.curr_step_idx ∧ s1.curr_action_idx = s.curr_action_idx ∧
    s1.skip_mode = s.skip_mode ∧ s1.dialogue_data = s.dialogue_data := by
  by_cases hg : s.last_action_idx ≠ (s.curr_action_idx : ℤ)
  · rw [if_pos hg] at h
    cases hx : execAction action s with
    | error e => rw [hx] at h; exact Except.noConfusion h
    | ok u =>
        rw [hx] at h
        simp only [Except.map] at h
        injection h with h
        obtain ⟨c1, c2, _, c4, _, c6⟩ := execAction_cursor _ _ _ hx
        subst h
        exact ⟨c1, c2, c4, c6⟩
  · rw [if_neg hg] at h
    injection h with h
    subst h
    exact ⟨rfl, rfl, rfl, rfl⟩

/-- The step loop leaves the step index and the script untouched, and never
raises the skip flag: starting in normal mode it stays in normal mode. -/
theorem executeStepLoop_invariant (actions : List ActionData) (fuel : ℕ)
    (s : EngineState) :
    ∀ (s' : EngineState) (b : Bool),
      executeStepLoop actions fuel s = .ok (s', b) →
      s'.curr_step_idx = s.curr_step_idx ∧ s'.dialogue_data = s.dialogue_data ∧
      (s.skip_mode = false → s'.skip_mode = false) := by
  induction fuel, s using executeStepLoop.induct actions with
  | case1 s =>
      intro s' b h
      simp only [executeStepLoop] at h
      injection h with h
      injection h with h1 h2
      subst h1
      exact ⟨rfl, rfl, fun hf => hf⟩
  | case2 fuel s h action cond e hexec =>
      intro s' b hrun
      simp only [executeStepLoop, dif_pos h, if_pos cond, hexec] at hrun
      exact Except.noConfusion hrun
  | case3 fuel s h action cond s1 hexec s2 ih =>
      intro s' b hrun
      simp only [executeStepLoop, dif_pos h, if_pos cond, hexec] at hrun
      obtain ⟨i1, i2, _⟩ := ih _ _ hrun
      obtain ⟨c1, _, _, c4, _, c6⟩ := execAction_cursor _ _ _ hexec
      have hs2a : s2.curr_step_idx = s1.curr_step_idx := by
        unfold s2; split <;> rfl
      have hs2b : s2.dialogue_data = s1.dialogue_data := by
        unfold s2; split <;> rfl
      exact ⟨i1.trans (hs2a.trans c1), i2.trans (hs2b.trans c6),
        fun hf => absurd cond.1 (by simp [hf])⟩
  | case4 fuel s h action cond e hguard =>
      intro s' b hrun
      simp only [executeStepLoop, dif_pos h, if_neg cond, hguard] at hrun
      exact Except.noConfusion hrun
  | case5 fuel s h action cond s1 hguard hblock htw =>
      intro s' b hrun
      simp only [executeStepLoop, dif_pos h, if_neg cond, hguard, if_pos hblock,
        htw, if_true] at hrun
      injection hrun with hrun
      injection hrun with h1 h2
      subst h1
      obtain ⟨g1, _, g3, g4⟩ := guardExec_cursor action s s1 hguard
      exact ⟨g1, g4, fun hf => g3.trans hf⟩
  | case6 fuel s h action cond s1 hguard hblock htw hcont =>
      intro s' b hrun
      simp only [executeStepLoop, dif_pos h, if_neg cond, hguard, if_pos hblock,
        htw, hcont] at hrun
      injection hrun with hrun
      injection hrun with h1 h2
      subst h1
      obtain ⟨g1, _, g3, g4⟩ := guardExec_cursor action s s1 hguard
      exact ⟨g1, g4, fun hf => g3.trans hf⟩
  | case7 fuel s h action cond s1 hguard hblock htw hcont s2 hsp =>
      intro s' b hrun
      simp only [executeStepLoop, dif_pos h, if_neg cond, hguard, if_pos hblock,
        htw, hcont, if_pos hsp] at hrun
      injection hrun with hrun
      injection hrun with h1 h2
      subst h1
      obtain ⟨g1, _, _, g4⟩ := guardExec_cursor action s s1 hguard
      exact ⟨g1, g4, fun hf => rfl⟩
  | case8 fuel s h action cond s1 hguard hblock htw hcont s2 hsp ih =>
      intro s' b hrun
      simp only [executeStepLoop, dif_pos h, if_neg cond, hguard, if_pos hblock,
        htw, hcont, if_neg hsp] at hrun
      obtain ⟨i1, i2, i3⟩ := ih _ _ hrun
      obtain ⟨g1, _, g3, g4⟩ := guardExec_cursor action s s1 hguard
      exact ⟨i1.trans g1, i2.trans g4, fun hf => i3 (g3.trans hf)⟩
  | case9 fuel s h action cond s1 hguard hblock s2 ih =>
      intro s' b hrun
      simp only [executeStepLoop, dif_pos h, if_neg cond, hguard, if_neg hblock] at hrun
      obtain ⟨i1, i2, i3⟩ := ih _ _ hrun
      obtain ⟨g1, _, g3, g4⟩ := guardExec_cursor action s s1 hguard
      exact ⟨i1.trans g1, i2.trans g4, fun hf => i3 (g3.trans hf)⟩
  | case10 fuel s h =>
      intro s' b hrun
      simp only [executeStepLoop, dif_neg h] at hrun
      injection hrun with hrun
      injection hrun with h1 h2
      subst h1
      exact ⟨rfl, rfl, fun hf => hf⟩

/-- In normal (non-skip) mode the step loop only ever yields step-not-finished
while standing on a `show_text` or `prompt` action: every other action kind
falls through to the next index within the same call. -/
theorem executeStepLoop_blocked_action (actions : List ActionData) (fuel : ℕ)
    (s : EngineState) :
    ∀ (s' : EngineState), s.skip_mode = false →
      executeStepLoop actions fuel s = .ok (s', false) →
      ∃ (ha : s'.curr_action_idx < actions.length),
        (actions.get ⟨s'.curr_action_idx, ha⟩).type = "show_text" ∨
        (actions.get ⟨s'.curr_action_idx, ha⟩).type = "prompt" := by
  induction fuel, s using executeStepLoop.induct actions with
  | case1 s =>
      intro s' hskip h
      simp only [executeStepLoop] at h
      injection h with h
      injection h with h1 h2
      exact Bool.noConfusion h2
  | case2 fuel s h action cond e hexec =>
      intro s' hskip hrun
      rw [hskip] at cond
      exact absurd cond.1 (by simp)
  | case3 fuel s h action cond s1 hexec s2 ih =>
      intro s' hskip hrun
      rw [hskip] at cond
      exact absurd cond.1 (by simp)
  | case4 fuel s h action cond e hguard =>
      intro s' hskip hrun
      simp only [executeStepLoop, dif_pos h, if_neg cond, hguard] at hrun
      exact Except.noConfusion hrun
  | case5 fuel s h action cond s1 hguard hblock htw =>
      intro s' hskip hrun
      simp only [executeStepLoop, dif_pos h, if_neg cond, hguard, if_pos hblock,
        htw, if_true] at hrun
      injection hrun with hrun
      injection hrun with h1 h2
      subst h1
      obtain ⟨_, g2, _, _⟩ := guardExec_cursor action s s1 hguard
      simp only [g2]
      exact ⟨h, hblock⟩
  | case6 fuel s h action cond s1 hguard hblock htw hcont =>
      intro s' hskip hrun
      simp only [executeStepLoop, dif_pos h, if_neg cond, hguard, if_pos hblock,
        htw, hcont] at hrun
      injection hrun with hrun
      injection hrun with h1 h2
      subst h1
      obtain ⟨_, g2, _, _⟩ := guardExec_cursor action s s1 hguard
      simp only [g2]
      exact ⟨h, hblock⟩
  | case7 fuel s h action cond s1 hguard hblock htw hcont s2 hsp =>
      intro s' hskip hrun
      obtain ⟨_, _, g3, _⟩ := guardExec_cursor action s s1 hguard
      have hx : s1.skip_mode = true := hsp.1
      rw [g3, hskip] at hx
      exact Bool.noConfusion hx
  | case8 fuel s h action cond s1 hguard hblock htw hcont s2 hsp ih =>
      intro s' hskip hrun
      simp only [executeStepLoop, dif_pos h, if_neg cond, hguard, if_pos hblock,
        htw, hcont, if_neg hsp] at hrun
      obtain ⟨_, _, g3, _⟩ := guardExec_cursor action s s1 hguard
      exact ih _ (g3.trans hskip) hrun
  | case9 fuel s h action cond s1 hguard hblock s2 ih =>
      intro s' hskip hrun
      simp only [executeStepLoop, dif_pos h, if_neg cond, hguard, if_neg hblock] at hrun
      obtain ⟨_, _, g3, _⟩ := guardExec_cursor action s s1 hguard
      exact ih _ (g3.trans hskip) hrun
  | case10 fuel s h =>
      intro s' hskip hrun
      simp only [executeStepLoop, dif_neg h] at hrun
      injection hrun with hrun
      injection hrun with h1 h2
      exact Bool.noConfusion h2

end NitroExpress

namespace NitroExpress

/-! ## Claim theorems -/

/-- C8: once the current step index has reached the number of steps, every
further advance call returns the engine state completely unchanged — step
index, action index, last-applied marker and all render state included — so
the terminal state is idempotent under advance. -/
theorem advance_after_script_finished_is_noop (s : EngineState)
    (h : s.dialogue_data.steps.length ≤ s.curr_step_idx) :
    advanceDialogue s = .ok s := by
  unfold advanceDialogue
  rw [if_pos h]

/-- Witness for C8 at a concrete finished script. -/
theorem advance_after_script_finished_is_noop_witness :
    advanceDialogue (initState ⟨[], []⟩ (1920, 1080) 1 initialGFlags [.dialogue]) =
      .ok (initState ⟨[], []⟩ (1920, 1080) 1 initialGFlags [.dialogue]) :=
  advance_after_script_finished_is_noop _ (by decide)

/-- C2 (code divergence): executing `hide_character "alice"` on entry of a
one-character script removes "alice" from the `sprite`, `pos` and `animator`
dicts but leaves its `is_highlighted` entry in place: the four maps are not
kept in lock-step and the removal is not from all four. -/
theorem hide_character_leaves_is_highlighted_entry :
    (enterScene hideAliceEntry).map (fun s =>
      (s.sprite.contains "alice", s.pos.contains "alice",
       s.animator.contains "alice", s.is_highlighted.contains "alice")) =
    .ok (false, false, false, true) := by rfl

/-- C3 (code divergence): with an empty flag map, a `change_dialogue_scene`
whose first package requires `f = "x"` and whose second package has no
requirement is a complete no-op — the matching second package is never
examined, because the mismatch in package one returns out of the action.
The same second package alone does trigger the switch. -/
theorem change_dialogue_scene_ignores_later_packages :
    execAction (.change_dialogue_scene [⟨"sceneA", [("f", "x")]⟩, ⟨"sceneB", []⟩])
        plainState = .ok plainState ∧
    plainState.pending_switch = none ∧
    execAction (.change_dialogue_scene [⟨"sceneB", []⟩]) plainState =
      .ok { plainState with pending_switch := some "sceneB" } :=
  ⟨rfl, rfl, rfl⟩

end NitroExpress

namespace NitroExpress

/-- C5: in normal (non-skip, non-auto) mode, once a `show_text` action has
been applied (last-applied marker equal to the current action index), an
advance call with the reveal unfinished or with no pending continue request
returns the state unchanged — in particular the step and action indices never
move; and in normal mode the loop can only yield step-not-finished while
standing on a `show_text` or `prompt` action, so no other action kind blocks
progression. -/
theorem show_text_blocks_until_continue :
    (∀ (s : EngineState) (step : DialogueStepData) (a : ActionData),
        s.dialogue_data.steps.get? s.curr_step_idx = some step →
        step.actions.get? s.curr_action_idx = some a →
        a.type = "show_text" →
        s.last_action_idx = (s.curr_action_idx : ℤ) →
        s.skip_mode = false →
        s.auto_mode = false →
        (s.tw.is_finished = false ∨ s.continue_dialogue = false) →
        advanceDialogue s = .ok s) ∧
    (∀ (actions : List ActionData) (fuel : ℕ) (s s' : EngineState),
        s.skip_mode = false →
        executeStepLoop actions fuel s = .ok (s', false) →
        ∃ (ha : s'.curr_action_idx < actions.length),
          (actions.get ⟨s'.curr_action_idx, ha⟩).type = "show_text" ∨
          (actions.get ⟨s'.curr_action_idx, ha⟩).type = "prompt") := by
  constructor
  · intro s step a hstep hact hty hlast hskip hauto hblk
    obtain ⟨hlt, hgetstep⟩ := List.get?_eq_some.mp hstep
    obtain ⟨halt, hgeta⟩ := List.get?_eq_some.mp hact
    have hfin : executeStep s.curr_step_idx s = .ok (s, false) := by
      obtain ⟨k, hk⟩ : ∃ k, step.actions.length - s.curr_action_idx = k + 1 :=
        ⟨step.actions.length - s.curr_action_idx - 1, by omega⟩
      have hnskip : ¬(s.skip_mode = true ∧
          (step.actions.get ⟨s.curr_action_idx, halt⟩).type ≠ "prompt") := by
        simp [hskip]
      have hng : ¬(s.last_action_idx ≠ (s.curr_action_idx : ℤ)) := by simp [hlast]
      have hbl : (step.actions.get ⟨s.curr_action_idx, halt⟩).type = "show_text" ∨
          (step.actions.get ⟨s.curr_action_idx, halt⟩).type = "prompt" :=
        Or.inl (hgeta ▸ hty)
      simp only [executeStep, hstep, hk, executeStepLoop, dif_pos halt,
        if_neg hnskip, if_neg hng, if_pos hbl]
      rcases hblk with htw | hcont
      · rw [if_pos htw]
      · by_cases htw : s.tw.is_finished = false
        · rw [if_pos htw]
        · rw [if_neg htw, if_pos hcont]
    unfold advanceDialogue
    rw [if_neg (not_le.mpr hlt), hfin]
    rfl
  · intro actions fuel s s' h1 h2
    exact executeStepLoop_blocked_action actions fuel s s' h1 h2

/-- Witness for C5 at a concrete blocked state (applied `show_text`, no
continue request pending). -/
theorem show_text_blocks_until_continue_witness :
    advanceDialogue plainShowTextState = .ok plainShowTextState :=
  show_text_blocks_until_continue.1 plainShowTextState
    ⟨"s0", [.show_text "n" "t" "x"]⟩ (.show_text "n" "t" "x")
    (by rfl) (by rfl) rfl (by rfl) rfl rfl (Or.inr rfl)

end NitroExpress

namespace NitroExpress

/-- C6 counterexample input: from the freshly entered two-empty-steps script,
the first advance call ends with the step index at 1 and the `show_text` of
step 2 not yet applied (empty history); only the second advance call applies
it — so the two empty steps do cost an extra frame before the effects of the
next blocking action are applied, contrary to the claim. -/
theorem empty_steps_cost_extra_advance_call :
    ((enterScene twoEmptyStepsEntry).bind advanceDialogue).map
      (fun s => (s.curr_step_idx, s.dialogue_history)) = .ok (1, []) ∧
    (((enterScene twoEmptyStepsEntry).bind advanceDialogue).bind advanceDialogue).map
      (fun s => (s.curr_step_idx, s.curr_action_idx, s.last_action_idx,
                 s.dialogue_history)) = .ok (2, 0, 0, [("n", "x")]) :=
  ⟨rfl, rfl⟩

/-- C6 (amended): when all actions of the current step are consumed, the engine
advances the step index by exactly one, resets the action index to 0 and the
last-applied marker to -1, clears the advance flag, and — when more steps
remain — executes the immediately following step within the same advance
call; completion bookkeeping handles only that one following step per call,
so each further empty step costs one additional advance call before the
effects of a later blocking action are applied. -/
theorem step_completion_bookkeeping (s s1 : EngineState)
    (h1 : s.curr_step_idx < s.dialogue_data.steps.length)
    (h2 : executeStep s.curr_step_idx s = .ok (s1, true)) :
    ∃ s2 : EngineState,
      s2 = { s1 with curr_step_idx := s1.curr_step_idx + 1, curr_action_idx := 0,
                     last_action_idx := -1, continue_dialogue := false } ∧
      s2.curr_step_idx = s.curr_step_idx + 1 ∧
      s2.curr_action_idx = 0 ∧ s2.last_action_idx = -1 ∧
      s2.continue_dialogue = false ∧
      (s2.curr_step_idx < s.dialogue_data.steps.length →
        advanceDialogue s = (executeStep s2.curr_step_idx s2).map Prod.fst) ∧
      (s.dialogue_data.steps.length ≤ s2.curr_step_idx →
        advanceDialogue s = .ok s2) := by
  have hinv : s1.curr_step_idx = s.curr_step_idx ∧
      s1.dialogue_data = s.dialogue_data := by
    cases hg : s.dialogue_data.steps.get? s.curr_step_idx with
    | none =>
        exfalso
        have := List.get?_eq_none.mp hg
        omega
    | some step =>
        simp only [executeStep, hg] at h2
        obtain ⟨a, b, _⟩ := executeStepLoop_invariant _ _ _ _ _ h2
        exact ⟨a, b⟩
  obtain ⟨i1, i2⟩ := hinv
  refine ⟨_, rfl, by simp [i1], rfl, rfl, rfl, ?_, ?_⟩
  · intro hlt
    have hc : s1.curr_step_idx + 1 < s1.dialogue_data.steps.length := by
      rw [i2]
      exact hlt
    unfold advanceDialogue
    rw [if_neg (not_le.mpr h1), h2]
    simp only [hc, if_true]
  · intro hge
    have hge' : s.dialogue_data.steps.length ≤ s1.curr_step_idx + 1 := hge
    have hc : ¬(s1.curr_step_idx + 1 < s1.dialogue_data.steps.length) := by
      rw [i2]
      omega
    unfold advanceDialogue
    rw [if_neg (not_le.mpr h1), h2]
    simp only [hc, if_true, if_false]

/-- Witness for C6 (amended) on a two-step script whose first step is empty. -/
theorem step_completion_bookkeeping_witness :
    ∃ s2 : EngineState,
      s2 = { twoEmptyStepsEntry with
              curr_step_idx := twoEmptyStepsEntry.curr_step_idx + 1,
              curr_action_idx := 0, last_action_idx := -1,
              continue_dialogue := false } ∧
      s2.curr_step_idx = twoEmptyStepsEntry.curr_step_idx + 1 ∧
      s2.curr_action_idx = 0 ∧ s2.last_action_idx = -1 ∧
      s2.continue_dialogue = false ∧
      (s2.curr_step_idx < twoEmptyStepsEntry.dialogue_data.steps.length →
        advanceDialogue twoEmptyStepsEntry =
          (executeStep s2.curr_step_idx s2).map Prod.fst) ∧
      (twoEmptyStepsEntry.dialogue_data.steps.length ≤ s2.curr_step_idx →
        advanceDialogue twoEmptyStepsEntry = .ok s2) :=
  step_completion_bookkeeping twoEmptyStepsEntry twoEmptyStepsEntry
    (by decide) (by rfl)

end NitroExpress

namespace NitroExpress

/-- C7 counterexample input: with "alice" shown, `hide_character "alice"`
followed by `move_character` on "alice" (no intervening `show_character`)
returns successfully instead of raising a content error. -/
theorem move_after_hide_silently_succeeds :
    ((execAction (.hide_character "alice") aliceShownState).bind
      (fun s => execAction (.move_character "alice" 0 0 (1/2) 0 1 "linear") s)).isOk
      = true := by rfl

/-- C7 (amended): once a character id is absent from the sprite dict (as after
`hide_character`), only a further `hide_character` on that id raises (a
KeyError from the dict pop); `move_character` and `set_highlight` on the id
silently succeed, re-inserting an entry into the `animator` respectively
`is_highlighted` dict, and `show_character` silently re-adds a position. -/
theorem hidden_character_reference_behaviour (s : EngineState) (cid : String)
    (hs : s.sprite.contains cid = false) (hne : cid ≠ "")
    (fx fy tx ty dur x y : ℚ) (dim : Bool) :
    (∃ s', execAction (.move_character cid fx fy tx ty dur "linear") s = .ok s' ∧
        s'.animator.contains cid = true) ∧
    (∃ s', execAction (.set_highlight cid dim) s = .ok s' ∧
        s'.is_highlighted.contains cid = true) ∧
    (∃ s', execAction (.show_character cid x y) s = .ok s' ∧
        s'.pos.contains cid = true) ∧
    execAction (.hide_character cid) s = .error (.keyError cid) := by
  refine ⟨⟨_, rfl, Dict.contains_insert_self _ _ _⟩, ⟨_, rfl, ?_⟩,
          ⟨_, rfl, Dict.contains_insert_self _ _ _⟩, ?_⟩
  · rw [if_pos hne]
    exact Dict.contains_insert_self _ _ _
  · simp only [execAction, Dict.pop_eq_none_of_not_contains s.sprite cid hs]

/-- Witness for C7 (amended) at a state whose sprite dict is empty. -/
theorem hidden_character_reference_behaviour_witness :
    (∃ s', execAction (.move_character "alice" 0 0 (1/2) 0 1 "linear") plainState
        = .ok s' ∧ s'.animator.contains "alice" = true) ∧
    (∃ s', execAction (.set_highlight "alice" true) plainState = .ok s' ∧
        s'.is_highlighted.contains "alice" = true) ∧
    (∃ s', execAction (.show_character "alice" 0 0) plainState = .ok s' ∧
        s'.pos.contains "alice" = true) ∧
    execAction (.hide_character "alice") plainState =
      .error (.keyError "alice") :=
  hidden_character_reference_behaviour plainState "alice" (by rfl) (by decide)
    0 0 (1/2) 0 1 0 0 true

end NitroExpress

namespace NitroExpress

/-- C10: with the engine blocked on an already-applied `show_text` (the
last-applied marker equals the current action index and the history already
ends with that `(speaker, text)` pair), enabling skip mode makes the next
advance call run the skip branch, which bypasses the last-applied guard and
executes the same `show_text` again, appending the pair to the history a
second time; and the skip button handler pre-pops the last history entry
(and raises IndexError when the history is empty) before setting the flag. -/
theorem skip_reapplies_blocked_show_text (sid speaker title text : String)
    (hist : List (String × String)) (tw0 : Typewriter)
    (hdup : hist.getLast? = some (speaker, text)) :
    (∃ s', advanceDialogue (blockedShowTextSkipState sid speaker title text hist tw0)
        = .ok s' ∧
      s'.dialogue_history = hist ++ [(speaker, text)] ∧
      s'.dialogue_history.getLast? = some (speaker, text) ∧
      (s'.dialogue_history.dropLast).getLast? = some (speaker, text)) ∧
    (∀ w : EngineState,
      (w.dialogue_history = [] →
        skipButtonClick w = .error (.indexError "pop from empty list")) ∧
      (w.dialogue_history ≠ [] →
        skipButtonClick w =
          .ok { w with dialogue_history := w.dialogue_history.dropLast,
                       skip_mode := true })) := by
  constructor
  · refine ⟨_, rfl, rfl, ?_, ?_⟩
    · show (hist ++ [(speaker, text)]).getLast? = some (speaker, text)
      simp
    · show ((hist ++ [(speaker, text)]).dropLast).getLast? = some (speaker, text)
      rw [List.dropLast_concat]
      exact hdup
  · intro w
    constructor
    · intro hw
      simp [skipButtonClick, hw]
    · intro hw
      obtain ⟨y, hy⟩ := Option.isSome_iff_exists.mp (List.getLast?_isSome.mpr hw)
      simp [skipButtonClick, hy]

/-- Witness for C10 with a one-entry history matching the applied text. -/
theorem skip_reapplies_blocked_show_text_witness :
    (∃ s', advanceDialogue
        (blockedShowTextSkipState "s0" "n" "t" "x" [("n", "x")] ⟨"x", 1, 1, 18⟩)
        = .ok s' ∧
      s'.dialogue_history = [("n", "x")] ++ [("n", "x")] ∧
      s'.dialogue_history.getLast? = some ("n", "x") ∧
      (s'.dialogue_history.dropLast).getLast? = some ("n", "x")) ∧
    (∀ w : EngineState,
      (w.dialogue_history = [] →
        skipButtonClick w = .error (.indexError "pop from empty list")) ∧
      (w.dialogue_history ≠ [] →
        skipButtonClick w =
          .ok { w with dialogue_history := w.dialogue_history.dropLast,
                       skip_mode := true })) :=
  skip_reapplies_blocked_show_text "s0" "n" "t" "x" [("n", "x")] ⟨"x", 1, 1, 18⟩
    (by rfl)

end NitroExpress

namespace NitroExpress

/-- C4 counterexample input: skip mode enabled while blocked on the applied
first `show_text` of the step `[show_text, show_character, prompt,
show_text]`. The advance call halts at the prompt (action index 2, prompt
sub-scene pushed) — but the skip-mode flag is still set at that yield,
not cleared as claimed. -/
theorem skip_mode_not_cleared_at_prompt_yield :
    (advanceDialogue (skipPromptStepState "s0" "a" "" "hello" "c" 0 0
        "pid" "msg" "Yes" "accepted" "No" "declined" "b" "" "bye"
        [("a", "hello")] ⟨"hello", 5, 1, 18⟩)).map
      (fun s => (s.curr_step_idx, s.curr_action_idx, s.skip_mode,
                 s.awaiting_overlays, s.scene_stack.length)) =
    .ok (0, 2, true, true, 2) := by rfl

/-- C4 (amended): with skip mode on, advancing the step `[show_text,
show_character, prompt, show_text]` applies and passes every action up to the
prompt in the same call (the reveal force-completed, the character placed),
pushes the prompt sub-scene and halts there with the step unfinished; the
skip-mode flag however remains set at this yield, and is cleared only by the
later advance call that runs once the prompt is acknowledged (continue
request received), which steps past the prompt without re-pushing it and
yields again. -/
theorem skip_halts_at_prompt_clears_on_acknowledge
    (sid n1 t1 x1 cid : String) (cx cy : ℚ)
    (pid pmsg ol1 ov1 ol2 ov2 n2 t2 x2 : String)
    (hist : List (String × String)) (tw0 : Typewriter) :
    ∃ s', advanceDialogue (skipPromptStepState sid n1 t1 x1 cid cx cy
        pid pmsg ol1 ov1 ol2 ov2 n2 t2 x2 hist tw0) = .ok s' ∧
      s'.curr_step_idx = 0 ∧ s'.curr_action_idx = 2 ∧ s'.last_action_idx = 2 ∧
      s'.dialogue_history = hist ++ [(n1, x1)] ∧
      s'.tw.is_finished = true ∧
      s'.pos.get? cid = some (relativeScaleToPos (1920, 1080) cx cy) ∧
      s'.scene_stack =
        (skipPromptStepState sid n1 t1 x1 cid cx cy pid pmsg ol1 ov1 ol2 ov2
          n2 t2 x2 hist tw0).scene_stack ++
          [.promptScene ⟨pmsg, pid, [ol1, ol2], [ov1, ov2], 0⟩] ∧
      s'.awaiting_overlays = true ∧
      s'.skip_mode = true ∧
      (∃ s'', advanceDialogue { s' with continue_dialogue := true } = .ok s'' ∧
        s''.skip_mode = false ∧ s''.curr_action_idx = 3 ∧
        s''.last_action_idx = -1 ∧ s''.continue_dialogue = false ∧
        s''.scene_stack = s'.scene_stack ∧ s''.curr_step_idx = 0) := by
  have hkey : advanceDialogue (skipPromptStepState sid n1 t1 x1 cid cx cy
      pid pmsg ol1 ov1 ol2 ov2 n2 t2 x2 hist tw0) =
      .ok (skipPromptYieldState sid n1 t1 x1 cid cx cy pid pmsg ol1 ov1 ol2
            ov2 n2 t2 x2 hist tw0) := by
    simp [advanceDialogue, executeStep, executeStepLoop, execAction,
      skipPromptStepState, skipPromptYieldState, initState, ActionData.type,
      Typewriter.skip, Typewriter.reset, Typewriter.is_finished, mkPromptScene,
      Except.map]
  have hkey2 : advanceDialogue
      { skipPromptYieldState sid n1 t1 x1 cid cx cy pid pmsg ol1 ov1 ol2 ov2
          n2 t2 x2 hist tw0 with continue_dialogue := true } =
      .ok { skipPromptYieldState sid n1 t1 x1 cid cx cy pid pmsg ol1 ov1 ol2
              ov2 n2 t2 x2 hist tw0 with
            continue_dialogue := false, skip_mode := false,
            curr_action_idx := 3, last_action_idx := -1 } := by
    simp [advanceDialogue, executeStep, executeStepLoop, execAction,
      skipPromptStepState, skipPromptYieldState, initState, ActionData.type,
      Typewriter.is_finished, Except.map]
  exact ⟨_, hkey, rfl, rfl, rfl, rfl,
    by simp [skipPromptYieldState, Typewriter.is_finished],
    by simp [skipPromptYieldState, Dict.get?_insert_self],
    by simp [skipPromptYieldState, skipPromptStepState, initState],
    rfl, rfl, ⟨_, hkey2, rfl, rfl, rfl, rfl, rfl, rfl⟩⟩

end NitroExpress

namespace NitroExpress

/-- C1: executing a `prompt` action pushes a prompt sub-scene carrying the
id of the action as flag key and the flag values of its options; resolving any option
`i` of that sub-scene (return key on the selected option or a click in an
option rect) performs the flag write first — at that point the sub-scene is
still on the scene stack and `flags[flag_key]` already holds the
flag value — and only then pops the sub-scene off the stack. -/
theorem prompt_resolution_writes_flag_before_pop
    (pid msg : String) (opts : List PromptOption) (s : EngineState)
    (i : ℕ) (hi : i < opts.length) :
    ∃ p : PromptSceneState,
      execAction (.prompt pid msg opts) s =
        .ok { s with scene_stack := s.scene_stack ++ [.promptScene p],
                     awaiting_overlays := true } ∧
      p.flag_key = pid ∧ p.option_flags = opts.map (·.flag_value) ∧
      ∀ w : EngineState, w.scene_stack.getLast? = some (.promptScene p) →
        (promptFlagWrite p i w).scene_stack.getLast? = some (.promptScene p) ∧
        (promptFlagWrite p i w).g_flags.get? pid =
          some (opts.get ⟨i, hi⟩).flag_value ∧
        promptResolveOption p i w =
          { promptFlagWrite p i w with
              scene_stack := (promptFlagWrite p i w).scene_stack.dropLast } ∧
        (promptResolveOption p i w).g_flags.get? pid =
          some (opts.get ⟨i, hi⟩).flag_value := by
  refine ⟨⟨msg, pid, opts.map (·.message), opts.map (·.flag_value), 0⟩,
    ?_, rfl, rfl, ?_⟩
  · simp [execAction, mkPromptScene]
  · intro w hw
    have hval : (opts.map (fun o => o.flag_value)).getD i "" =
        (opts.get ⟨i, hi⟩).flag_value := by
      simp [List.getD, List.getElem?_map, List.getElem?_eq_getElem hi]
    refine ⟨hw, ?_, rfl, ?_⟩
    · simp only [promptFlagWrite, Dict.get?_insert_self]
      rw [hval]
    · simp only [promptResolveOption, promptFlagWrite, Dict.get?_insert_self]
      rw [hval]

/-- Witness for C1: a one-option prompt for flag key "chapter1_choice" with
flag value "accepted", resolved at index 0 on the state where the sub-scene
sits on top of the stack. -/
theorem prompt_resolution_writes_flag_before_pop_witness :
    ∃ p : PromptSceneState,
      execAction (.prompt "chapter1_choice" "msg" [⟨"Yes", "accepted"⟩])
          plainState =
        .ok { plainState with
              scene_stack := plainState.scene_stack ++ [.promptScene p],
              awaiting_overlays := true } ∧
      (promptFlagWrite p 0 { plainState with
          scene_stack := plainState.scene_stack ++ [.promptScene p]
        }).scene_stack.getLast? = some (.promptScene p) ∧
      (promptFlagWrite p 0 { plainState with
          scene_stack := plainState.scene_stack ++ [.promptScene p]
        }).g_flags.get? "chapter1_choice" = some "accepted" ∧
      (promptResolveOption p 0 { plainState with
          scene_stack := plainState.scene_stack ++ [.promptScene p]
        }).g_flags.get? "chapter1_choice" = some "accepted" := by
  obtain ⟨p, h1, h2, h3, h4⟩ :=
    prompt_resolution_writes_flag_before_pop "chapter1_choice" "msg"
      [⟨"Yes", "accepted"⟩] plainState 0 (by decide)
  obtain ⟨k1, k2, k3, k4⟩ := h4
    { plainState with
      scene_stack := plainState.scene_stack ++ [.promptScene p] }
    (by simp)
  exact ⟨p, h1, k1, k2, k4⟩

end NitroExpress

namespace NitroExpress

namespace Animator

theorem update_start (a : Animator) (d : ℝ) : (a.update d).start = a.start := rfl

theorem update_endp (a : Animator) (d : ℝ) : (a.update d).endp = a.endp := rfl

theorem update_kind (a : Animator) (d : ℝ) : (a.update d).kind = a.kind := rfl

theorem update_duration (a : Animator) (d : ℝ) :
    (a.update d).duration = a.duration := rfl

theorem update_elapsed (a : Animator) (d : ℝ) :
    (a.update d).elapsed =
      if a.elapsed + max d 0 ≥ a.duration then a.duration
      else a.elapsed + max d 0 := rfl

theorem update_v (a : Animator) (d : ℝ) :
    (a.update d).v = ease a.kind ((a.update d).elapsed / a.duration) := rfl

/-- `run` leaves the construction data of the animator unchanged. -/
theorem run_fields (us : List ℝ) :
    ∀ a : Animator, (a.run us).start = a.start ∧ (a.run us).endp = a.endp ∧
      (a.run us).kind = a.kind ∧ (a.run us).duration = a.duration := by
  induction us with
  | nil => exact fun a => ⟨rfl, rfl, rfl, rfl⟩
  | cons d ds ih =>
      intro a
      obtain ⟨h1, h2, h3, h4⟩ := ih (a.update d)
      exact ⟨h1.trans (update_start a d), h2.trans (update_endp a d),
        h3.trans (update_kind a d), h4.trans (update_duration a d)⟩

/-- The elapsed time after a run is the total nonnegative input time clamped
at the duration. -/
theorem run_elapsed (us : List ℝ) :
    ∀ a : Animator, a.elapsed ≤ a.duration →
      (a.run us).elapsed =
        min (a.elapsed + (us.map (fun u => max u 0)).sum) a.duration := by
  induction us with
  | nil =>
      intro a h
      simp [run, min_eq_left h]
  | cons d ds ih =>
      intro a h
      have hupd : (a.update d).elapsed = min (a.elapsed + max d 0) a.duration := by
        rw [update_elapsed]
        rcases le_or_lt a.duration (a.elapsed + max d 0) with hc | hc
        · rw [if_pos hc, min_eq_right hc]
        · rw [if_neg (not_le.mpr hc), min_eq_left hc.le]
      have h2 : (a.update d).elapsed ≤ (a.update d).duration := by
        rw [hupd, update_duration]
        exact min_le_right _ _
      have hrec := ih (a.update d) h2
      have hS : (0 : ℝ) ≤ (ds.map (fun u => max u 0)).sum :=
        List.sum_nonneg (by
          intro x hx
          obtain ⟨u, _, rfl⟩ := List.mem_map.mp hx
          exact le_max_right u 0)
      calc (a.run (d :: ds)).elapsed
          = ((a.update d).run ds).elapsed := rfl
        _ = min ((a.update d).elapsed + (ds.map (fun u => max u 0)).sum)
              (a.update d).duration := hrec
        _ = min (min (a.elapsed + max d 0) a.duration +
              (ds.map (fun u => max u 0)).sum) a.duration := by
            rw [hupd, update_duration]
        _ = min (a.elapsed + ((d :: ds).map (fun u => max u 0)).sum)
              a.duration := by
            rcases le_total (a.elapsed + max d 0) a.duration with hc | hc
            · rw [min_eq_left hc]
              simp [add_assoc]
            · rw [min_eq_right hc]
              rw [min_eq_right, min_eq_right]
              · simp only [List.map_cons, List.sum_cons, ← add_assoc]
                linarith
              · linarith
  
/-- After at least one update, `_v` holds the easing of the current
normalized time. -/
theorem run_v (us : List ℝ) :
    us ≠ [] → ∀ a : Animator,
      (a.run us).v = ease a.kind ((a.run us).elapsed / a.duration) := by
  induction us with
  | nil => exact fun h => absurd rfl h
  | cons d ds ih =>
      intro _ a
      by_cases hds : ds = []
      · subst hds
        exact update_v a d
      · calc (a.run (d :: ds)).v = ((a.update d).run ds).v := rfl
          _ = ease (a.update d).kind
                (((a.update d).run ds).elapsed / (a.update d).duration) :=
              ih hds (a.update d)
          _ = ease a.kind ((a.run (d :: ds)).elapsed / a.duration) := by
              rw [update_kind, update_duration]
              rfl

/-- Every easing law maps normalized time 1 to progress 1 (the elastic law by
its explicit branch). -/
theorem ease_one : ∀ k : EasingKind, ease k 1 = 1 := by
  intro k
  cases k <;> simp [ease]

end Animator

end NitroExpress

namespace NitroExpress

/-- C9 counterexample input: a linear animator constructed with duration 0
from (0,0) to (1,0) and the empty update sequence. Its elapsed time (0) is
already `≥ d = 0`, yet the current point is the start, not the end point, and
the animator does not report finished (the constructor floors the duration at
1e-6). -/
theorem animator_zero_duration_not_finished :
    (Animator.init (0, 0) (1, 0) .linear 0).elapsed ≥ 0 ∧
    (Animator.init (0, 0) (1, 0) .linear 0).curr = (0, 0) ∧
    (Animator.init (0, 0) (1, 0) .linear 0).curr ≠ (1, 0) ∧
    ¬(Animator.init (0, 0) (1, 0) .linear 0).is_finished := by
  refine ⟨le_refl 0, ?_, ?_, ?_⟩
  · simp [Animator.init, Animator.curr, lerp]
  · simp [Animator.init, Animator.curr, lerp, Prod.ext_iff]
  · simp only [Animator.init, Animator.is_finished]
    norm_num

/-- C9 (amended): for every easing kind, start/end point and duration
`d ≥ 1e-6` (the constructor floors shorter durations at 1e-6), the freshly
constructed animator has the start point as its current point, and after any update
sequence whose clamped total time reaches `d` the current point is the end
point and the animator reports finished. -/
theorem animator_endpoints (kind : EasingKind) (p q : ℝ × ℝ) (d : ℝ)
    (us : List ℝ) (hd : (1 : ℝ) / 1000000 ≤ d)
    (hsum : d ≤ (us.map (fun u => max u 0)).sum) :
    (Animator.init p q kind d).curr = p ∧
    ((Animator.init p q kind d).run us).curr = q ∧
    ((Animator.init p q kind d).run us).is_finished := by
  have hD : (Animator.init p q kind d).duration = d := max_eq_left hd
  have hdpos : (0 : ℝ) < d := lt_of_lt_of_le (by norm_num) hd
  have hne : us ≠ [] := by
    intro h
    subst h
    simp at hsum
    linarith
  have h0 : (Animator.init p q kind d).elapsed ≤
      (Animator.init p q kind d).duration := by
    rw [hD]
    exact hdpos.le
  have hel : ((Animator.init p q kind d).run us).elapsed = d := by
    rw [Animator.run_elapsed us _ h0, hD]
    show min ((0 : ℝ) + _) d = d
    rw [zero_add]
    exact min_eq_right hsum
  have hv : ((Animator.init p q kind d).run us).v = 1 := by
    rw [Animator.run_v us hne, hel, hD, div_self (ne_of_gt hdpos)]
    exact Animator.ease_one kind
  obtain ⟨f1, f2, _, f4⟩ := Animator.run_fields us (Animator.init p q kind d)
  refine ⟨?_, ?_, ?_⟩
  · simp [Animator.init, Animator.curr, lerp]
  · show lerp _ _ _ = q
    rw [f1, f2, hv]
    show lerp p q 1 = q
    simp only [lerp, Prod.ext_iff]
    constructor <;> ring_nf
  · show ((Animator.init p q kind d).run us).elapsed ≥ _
    rw [hel, f4, hD]

/-- Witness for C9 (amended): a unit-duration linear animator driven by a
single unit-time update reaches its end point exactly. -/
theorem animator_endpoints_witness :
    ((1 : ℝ) / 1000000 ≤ 1) ∧
    ((1 : ℝ) ≤ (([1] : List ℝ).map (fun u => max u 0)).sum) ∧
    ((Animator.init (0, 0) (3, 4) .linear 1).curr = (0, 0) ∧
     ((Animator.init (0, 0) (3, 4) .linear 1).run [1]).curr = (3, 4) ∧
     ((Animator.init (0, 0) (3, 4) .linear 1).run [1]).is_finished) :=
  ⟨by norm_num, by norm_num,
   animator_endpoints .linear (0, 0) (3, 4) 1 [1] (by norm_num) (by norm_num)⟩

end NitroExpress
